import Mathlib

/-!
Verification of the click-repeat-server core (src/loop.py and
src/tools/computer.py) against its natural-language specification.

The conversation data model, the sampling loop's policies
(`_inject_prompt_caching`, `_maybe_filter_to_n_most_recent_images`),
tool-result serialization (`_make_api_tool_result`), the per-iteration
dispatch of `tool_use` blocks, and the screen-control adapter
(`BaseComputerTool.__call__`, `ComputerTool20250124.__call__`,
`scale_coordinates`, `validate_and_get_coordinates`) are shallowly
embedded as executable Lean functions.  Python machine behaviour is kept:
truthiness of optional strings and of optional integers, Python's `%` on
integers (nonnegative remainder for a positive modulus, `Int.emod`), and
Python's `round` (round half to even).
-/

namespace ClickRepeat

/-! ## Conversation data model (anthropic beta message params, as used by loop.py) -/

/-- A sub-item of a `tool_result` block's list content: either a base64 image
item or a text item. -/
inductive TRItem
  | image (data : String)
  | text (t : String)
  deriving DecidableEq, Repr

/-- Content of a `tool_result` block: either a plain string (used for error
results) or a list of text/image items. -/
inductive TRContent
  | str (s : String)
  | items (l : List TRItem)
  deriving DecidableEq, Repr

/-- The tagged variants of a content block appearing in a message. -/
inductive BlockKind
  | text (t : String)
  | thinking (t : String) (signature : Option String)
  | toolUse (id : String) (name : String) (input : String)
  | toolResult (tool_use_id : String) (is_error : Bool) (content : TRContent)
  deriving DecidableEq, Repr

/-- A content block; `cache_control` records whether the block dict carries the
ephemeral cache annotation. -/
structure Block where
  kind : BlockKind
  cache_control : Bool
  deriving DecidableEq, Repr

/-- A message's content is either a plain string or a list of blocks. -/
inductive MsgContent
  | str (s : String)
  | blocks (bs : List Block)
  deriving DecidableEq, Repr

inductive Role
  | user
  | assistant
  deriving DecidableEq, Repr

structure Message where
  role : Role
  content : MsgContent
  deriving DecidableEq, Repr

/-! ## ToolResult and serialization (loop.py `_make_api_tool_result`) -/

/-- Result of a tool execution, as consumed by loop.py and produced by the
tools in src/tools (fields exactly as accessed by `_make_api_tool_result` and
`_maybe_prepend_system_tool_result`: `output`, `error`, `base64_image`,
`system`, each optional). -/
structure ToolResult where
  output : Option String := none
  error : Option String := none
  base64_image : Option String := none
  system : Option String := none
  deriving DecidableEq, Repr

/-- Python truthiness of an optional string field (`None` and `""` are falsy). -/
def optTruthy : Option String → Bool
  | none => false
  | some s => s != ""

/-- loop.py `_maybe_prepend_system_tool_result`. -/
def maybe_prepend_system_tool_result (result : ToolResult) (result_text : String) : String :=
  if optTruthy result.system then
    "<system>" ++ result.system.getD "" ++ "</system>\n" ++ result_text
  else
    result_text

/-- loop.py `_make_api_tool_result`: convert a ToolResult to a `tool_result`
block.  On a truthy `error` the content is the plain (system-annotated) error
string and `is_error` is set; otherwise the content is the list of an optional
text item followed by an optional image item. -/
def make_api_tool_result (result : ToolResult) (tool_use_id : String) : Block :=
  if optTruthy result.error then
    { kind := BlockKind.toolResult tool_use_id true
        (TRContent.str (maybe_prepend_system_tool_result result (result.error.getD ""))),
      cache_control := false }
  else
    { kind := BlockKind.toolResult tool_use_id false
        (TRContent.items
          ((if optTruthy result.output then
              [TRItem.text (maybe_prepend_system_tool_result result (result.output.getD ""))]
            else []) ++
           (if optTruthy result.base64_image then
              [TRItem.image (result.base64_image.getD "")]
            else []))),
      cache_control := false }

/-! ## Image counting (used by the retention policy and by claims about images) -/

def trItemIsImage : TRItem → Bool
  | TRItem.image _ => true
  | TRItem.text _ => false

/-- Number of image items in a `tool_result` content (a plain string content
has none, matching the Python iteration over `tool_result.get("content", [])`). -/
def imagesInContent : TRContent → Nat
  | TRContent.str _ => 0
  | TRContent.items l => l.countP trItemIsImage

/-- Number of image items in a block (only `tool_result` blocks carry them). -/
def imagesInBlock (b : Block) : Nat :=
  match b.kind with
  | BlockKind.toolResult _ _ c => imagesInContent c
  | _ => 0

def imagesInMessage (m : Message) : Nat :=
  match m.content with
  | MsgContent.str _ => 0
  | MsgContent.blocks bs => (bs.map imagesInBlock).sum

/-- Total screenshot images across a conversation, counted exactly the way
`_maybe_filter_to_n_most_recent_images` counts them. -/
def total_images (msgs : List Message) : Nat :=
  (msgs.map imagesInMessage).sum

/-! ## Cache breakpoint injection (loop.py `_inject_prompt_caching`) -/

/-- Set the cache annotation on the last block of a list
(`content[-1]["cache_control"] = ...`).  The source indexes `content[-1]`, so
it is only ever applied to nonempty block lists. -/
def set_last_cache : List Block → List Block
  | [] => []
  | [b] => [{ b with cache_control := true }]
  | b :: b' :: rest => b :: set_last_cache (b' :: rest)

/-- Remove the cache annotation from the last block of a list
(`content[-1].pop("cache_control", None)`). -/
def clear_last_cache : List Block → List Block
  | [] => []
  | [b] => [{ b with cache_control := false }]
  | b :: b' :: rest => b :: clear_last_cache (b' :: rest)

/-- The messages `_inject_prompt_caching` acts on: user role with list content
(`message["role"] == "user" and isinstance(message["content"], list)`). -/
def isUserListMsg (m : Message) : Bool :=
  match m.role, m.content with
  | Role.user, MsgContent.blocks _ => true
  | _, _ => false

/-- Annotate the last block of a user list-content message. -/
def setMsgCache (m : Message) : Message :=
  match m.content with
  | MsgContent.blocks bs => { m with content := MsgContent.blocks (set_last_cache bs) }
  | MsgContent.str _ => m

/-- Clear the annotation on the last block of a user list-content message. -/
def clearMsgCache (m : Message) : Message :=
  match m.content with
  | MsgContent.blocks bs => { m with content := MsgContent.blocks (clear_last_cache bs) }
  | MsgContent.str _ => m

/-- The body of `_inject_prompt_caching`, acting on the conversation in
reverse chronological order (most recent first).  While `remaining` is
truthy, each user list-content message gets the annotation on its last
block; when `remaining` hits zero the next such message is cleared and the
scan stops (`break`), leaving everything older untouched. -/
def injectRev : Nat → List Message → List Message
  | _, [] => []
  | remaining, m :: rest =>
    match m.content with
    | MsgContent.blocks bs =>
      if m.role = Role.user then
        if remaining ≠ 0 then
          { m with content := MsgContent.blocks (set_last_cache bs) } ::
            injectRev (remaining - 1) rest
        else
          { m with content := MsgContent.blocks (clear_last_cache bs) } :: rest
      else
        m :: injectRev remaining rest
    | MsgContent.str _ => m :: injectRev remaining rest

/-- loop.py `_inject_prompt_caching` with its constant
`breakpoints_remaining = 3`. -/
def inject_prompt_caching (messages : List Message) : List Message :=
  (injectRev 3 messages.reverse).reverse

/-- Does a message carry the cache annotation on any of its blocks? -/
def carriesAnno (m : Message) : Bool :=
  match m.content with
  | MsgContent.str _ => false
  | MsgContent.blocks bs => bs.any (fun b => b.cache_control)

/-- Does a message carry the cache annotation on its last block? -/
def carriesOnLast (m : Message) : Bool :=
  match m.content with
  | MsgContent.str _ => false
  | MsgContent.blocks bs => ((bs.getLast?).map (fun b => b.cache_control)).getD false

/-- The user list-content messages of a conversation, most recent first. -/
def recentUsers (msgs : List Message) : List Message :=
  msgs.reverse.filter isUserListMsg

/-- What `_inject_prompt_caching` does to the sequence of user list-content
messages (most recent first): annotate the first `r`, clear the next one,
leave the rest untouched. -/
def annotateFirst : Nat → List Message → List Message
  | _, [] => []
  | 0, m :: rest => clearMsgCache m :: rest
  | r + 1, m :: rest => setMsgCache m :: annotateFirst r rest

/-! ## Image retention policy (loop.py `_maybe_filter_to_n_most_recent_images`) -/

/-- The removal pass over one `tool_result` content list: while the counter is
positive, drop image items (decrementing); keep everything else.  Returns the
leftover counter and the filtered list. -/
def removeItems : Int → List TRItem → Int × List TRItem
  | n, [] => (n, [])
  | n, item :: rest =>
    if trItemIsImage item ∧ 0 < n then
      removeItems (n - 1) rest
    else
      ((removeItems n rest).1, item :: (removeItems n rest).2)

/-- Apply the removal pass to one block: only `tool_result` blocks whose
content is a list are rewritten (`isinstance(tool_result.get("content"), list)`). -/
def removeFromBlock (n : Int) (b : Block) : Int × Block :=
  match b.kind with
  | BlockKind.toolResult id err (TRContent.items l) =>
    ((removeItems n l).1,
     { b with kind := BlockKind.toolResult id err (TRContent.items (removeItems n l).2) })
  | _ => (n, b)

def removeFromBlocks : Int → List Block → Int × List Block
  | n, [] => (n, [])
  | n, b :: rest =>
    ((removeFromBlocks (removeFromBlock n b).1 rest).1,
     (removeFromBlock n b).2 :: (removeFromBlocks (removeFromBlock n b).1 rest).2)

def removeFromMessage (n : Int) (m : Message) : Int × Message :=
  match m.content with
  | MsgContent.str _ => (n, m)
  | MsgContent.blocks bs =>
    ((removeFromBlocks n bs).1,
     { m with content := MsgContent.blocks (removeFromBlocks n bs).2 })

def removeFromMessages : Int → List Message → Int × List Message
  | n, [] => (n, [])
  | n, m :: rest =>
    ((removeFromMessages (removeFromMessage n m).1 rest).1,
     (removeFromMessage n m).2 :: (removeFromMessages (removeFromMessage n m).1 rest).2)

/-- loop.py `_maybe_filter_to_n_most_recent_images`: count the images in all
`tool_result` blocks, compute `images_to_remove = total - keep` and round it
down by `images_to_remove -= images_to_remove % min_removal_threshold`
(Python `%`, i.e. `Int.emod`), then drop that many images walking the blocks
in original order. -/
def maybe_filter_to_n_most_recent_images
    (messages : List Message) (images_to_keep : Nat) (min_removal_threshold : Nat) :
    List Message :=
  let total : Int := total_images messages
  let images_to_remove : Int := total - images_to_keep
  let images_to_remove2 : Int :=
    images_to_remove - images_to_remove % (min_removal_threshold : Int)
  (removeFromMessages images_to_remove2 messages).2

/-! ## The sampling loop (loop.py `sampling_loop`) -/

inductive Provider
  | anthropic
  | bedrock
  | vertex
  deriving DecidableEq, Repr

/-- Python truthiness of the `only_n_most_recent_images` value
(`None` and `0` are falsy). -/
def truthyNat : Option Nat → Bool
  | none => false
  | some n => n != 0

/-- Result of the pre-API-call phase of one loop iteration. -/
structure PreCallResult where
  messages : List Message
  onlyN : Option Nat
  enable_prompt_caching : Bool
  filter_applied : Bool
  deriving Repr

/-- The state updates `sampling_loop` performs before each API call:
`image_truncation_threshold = only_n_most_recent_images or 0`; for the
ANTHROPIC provider enable prompt caching, inject cache breakpoints and set
`only_n_most_recent_images = 0`; then, if `only_n_most_recent_images` is
truthy, apply the image filter with the threshold captured above. -/
def pre_api_call (provider : Provider) (messages : List Message) (onlyN : Option Nat) :
    PreCallResult :=
  let threshold : Nat := onlyN.getD 0
  let epc : Bool := provider = Provider.anthropic
  let messages1 := if epc then inject_prompt_caching messages else messages
  let onlyN1 : Option Nat := if epc then some 0 else onlyN
  if truthyNat onlyN1 then
    { messages := maybe_filter_to_n_most_recent_images messages1 (onlyN1.getD 0) threshold,
      onlyN := onlyN1, enable_prompt_caching := epc, filter_applied := true }
  else
    { messages := messages1, onlyN := onlyN1, enable_prompt_caching := epc,
      filter_applied := false }

/-- The `tool_use` blocks of a response, in block order, as
(id, name, input) triples. -/
def toolUses : List Block → List (String × String × String)
  | [] => []
  | b :: rest =>
    match b.kind with
    | BlockKind.toolUse id name input => (id, name, input) :: toolUses rest
    | _ => toolUses rest

/-- The dispatch pass of one loop iteration over the parsed response blocks:
for each `tool_use` block, in order, run the tool (abstracted as `runTool
name input`) and serialize the result with `_make_api_tool_result`.  Returns
the dispatch trace ((name, input) pairs in invocation order) and the
collected `tool_result` blocks. -/
def process_blocks (runTool : String → String → ToolResult) :
    List Block → List (String × String) × List Block
  | [] => ([], [])
  | b :: rest =>
    let (ds, rs) := process_blocks runTool rest
    match b.kind with
    | BlockKind.toolUse id name input =>
      ((name, input) :: ds, make_api_tool_result (runTool name input) id :: rs)
    | _ => (ds, rs)

/-- The `tool_use_id` of a `tool_result` block, if it is one. -/
def blockToolUseId (b : Block) : Option String :=
  match b.kind with
  | BlockKind.toolResult id _ _ => some id
  | _ => none

/-- One iteration of `sampling_loop` with a given parsed model response:
pre-call policies, append the assistant message, dispatch tools; if no
`tool_result` was produced the loop stops, otherwise the results are appended
as a user message.  Returns (messages, new only-n value, whether the image
filter ran, whether the loop continues). -/
def loop_iteration (provider : Provider) (runTool : String → String → ToolResult)
    (messages : List Message) (onlyN : Option Nat) (response : List Block) :
    List Message × Option Nat × Bool × Bool :=
  let pre := pre_api_call provider messages onlyN
  let messages1 := pre.messages ++ [{ role := Role.assistant, content := MsgContent.blocks response }]
  let rs := (process_blocks runTool response).2
  if rs = [] then
    (messages1, pre.onlyN, pre.filter_applied, false)
  else
    (messages1 ++ [{ role := Role.user, content := MsgContent.blocks rs }],
      pre.onlyN, pre.filter_applied, true)

/-- `sampling_loop` driven by a script of parsed model responses (one per
successful API call; an exhausted script models a terminal provider error,
whose pre-call mutations have already been applied in place).  Returns the
final conversation, the number of model responses consumed, and whether the
image filter was applied in any iteration. -/
def run_loop (provider : Provider) (runTool : String → String → ToolResult) :
    List (List Block) → List Message → Option Nat → List Message × Nat × Bool
  | [], messages, onlyN =>
    let pre := pre_api_call provider messages onlyN
    (pre.messages, 0, pre.filter_applied)
  | response :: rest, messages, onlyN =>
    let (messages1, onlyN1, filt1, cont) := loop_iteration provider runTool messages onlyN response
    if cont then
      let (finalMsgs, calls, filt) := run_loop provider runTool rest messages1 onlyN1
      (finalMsgs, calls + 1, filt1 || filt)
    else
      (messages1, 1, filt1)

/-! ## Screen-control adapter (src/tools/computer.py)

The VM controller / actuator is an external collaborator: its operations are
recorded as a trace of `VMOp`s, and the few values it produces (converted
coordinates, cursor position, screenshot bytes, clipboard) are abstracted in
an `Actuator` record. -/

/-- Python's `round` on an exact rational: round half to even. -/
def roundHalfEven (q : ℚ) : ℤ :=
  if q - ⌊q⌋ < 1/2 then ⌊q⌋
  else if 1/2 < q - ⌊q⌋ then ⌊q⌋ + 1
  else if ⌊q⌋ % 2 = 0 then ⌊q⌋ else ⌊q⌋ + 1

inductive ScalingSource
  | API
  | COMPUTER
  deriving DecidableEq, Repr

/-- computer.py `BaseComputerTool.scale_coordinates` with `_scaling_enabled`
(always true for this class) and the fixed FWXGA target 1366x768:
`x_scaling_factor = 1366 / self.width`; the API source rejects coordinates
above the target bounds and divides by the factor, the COMPUTER source
multiplies by it. -/
def scale_coordinates (width height : ℕ) (source : ScalingSource) (x y : ℤ) :
    Except String (ℤ × ℤ) :=
  let x_scaling_factor : ℚ := 1366 / (width : ℚ)
  let y_scaling_factor : ℚ := 768 / (height : ℚ)
  match source with
  | ScalingSource.API =>
    if 1366 < x ∨ 768 < y then
      Except.error ("Coordinates " ++ toString x ++ ", " ++ toString y ++ " are out of bounds")
    else
      Except.ok (roundHalfEven ((x : ℚ) / x_scaling_factor),
                 roundHalfEven ((y : ℚ) / y_scaling_factor))
  | ScalingSource.COMPUTER =>
    Except.ok (roundHalfEven ((x : ℚ) * x_scaling_factor),
               roundHalfEven ((y : ℚ) * y_scaling_factor))

/-- computer.py `BaseComputerTool.validate_and_get_coordinates`: the tuple and
length-2 checks always pass for a typed pair; nonnegativity is checked, then
the coordinate is scaled with the API source. -/
def validate_and_get_coordinates (width height : ℕ) (c : ℤ × ℤ) :
    Except String (ℤ × ℤ) :=
  if c.1 < 0 ∨ c.2 < 0 then
    Except.error ("(" ++ toString c.1 ++ ", " ++ toString c.2 ++
      ") must contain non-negative integers")
  else
    scale_coordinates width height ScalingSource.API c.1 c.2

/-- One operation delegated to the VM controller / actuator. -/
inductive VMOp
  | toScreenCoords (x y : ℤ)
  | toShotCoords (x y : ℤ)
  | moveCursor (x y : ℤ)
  | cursorPos
  | dragTo (x y : ℤ)
  | osascriptRun
  | hotkeyPress (keys : List String)
  | typeChunk (s : String)
  | clickLeft (p : Option (ℤ × ℤ))
  | clickRight (p : Option (ℤ × ℤ))
  | clickDouble (p : Option (ℤ × ℤ))
  | screenshotCap
  | scrollUpBy (n : ℤ)
  | scrollDownBy (n : ℤ)
  | mouseDown
  | mouseUp
  | runCmd (s : String)
  | clipboardRead
  | sleepFor (d : ℚ)
  deriving DecidableEq, Repr

/-- Abstracted behaviour of the external actuator (VM controller). -/
structure Actuator where
  toScreen : ℤ → ℤ → ℤ × ℤ
  toShot : ℤ → ℤ → ℤ × ℤ
  cursor : ℤ × ℤ
  shot : String
  clipboard : String

/-- Outcome of one adapter call: the trace of actuator operations performed
and either a ToolError message or a ToolResult. -/
structure CallResult where
  ops : List VMOp
  result : Except String ToolResult
  deriving Repr

def errResult (ops : List VMOp) (msg : String) : CallResult :=
  { ops := ops, result := Except.error msg }

/-- computer.py `BaseComputerTool.make_result` with its default
`take_screenshot=True`: settle for `_screenshot_delay = 1.0` seconds, take a
screenshot and attach it. -/
def okShot (A : Actuator) (ops : List VMOp) (output : String) : CallResult :=
  { ops := ops ++ [VMOp.sleepFor 1, VMOp.screenshotCap],
    result := Except.ok { output := some output, base64_image := some A.shot } }

/-- `make_result` with `take_screenshot=False`. -/
def okPlain (ops : List VMOp) (output : String) : CallResult :=
  { ops := ops, result := Except.ok { output := some output } }

/-- computer.py `chunks(s, chunk_size)` on the character list; `n + 1` is the
chunk size (the source only calls it with `TYPING_GROUP_SIZE = 50`). -/
def chunkChars (n : Nat) : List Char → List (List Char)
  | [] => []
  | c :: rest => (c :: rest.take n) :: chunkChars n (rest.drop n)
  termination_by l => l.length
  decreasing_by simp [List.length_drop]; omega

/-- computer.py `chunks` for a positive chunk size. -/
def chunks (s : String) (chunk_size : Nat) : List String :=
  (chunkChars (chunk_size - 1) s.toList).map (fun l => String.mk l)

/-- computer.py `BaseComputerTool.__call__`: the 20241022 action set.  The
`validate_and_get_coordinates` calls for mouse/click actions are commented out
in the source; the raw coordinate is handed to the VM controller's
`to_screen_coordinates` instead.  A click with no coordinate leaves the
Python locals `x`, `y` unbound; the resulting NameError is caught by the
surrounding `except` and wrapped in a ToolError. -/
def base_call (A : Actuator) (is_macos : Bool) (action : String)
    (text : Option String) (coordinate : Option (ℤ × ℤ)) : CallResult :=
  if action = "run_command" then
    okPlain [VMOp.runCmd (text.getD "None")] ("Command '" ++ text.getD "None" ++ "' run")
  else if action = "mouse_move" ∨ action = "left_click_drag" then
    match coordinate with
    | none => errResult [] ("coordinate is required for " ++ action)
    | some c =>
      if text ≠ none then errResult [] ("text is not accepted for " ++ action)
      else
        let p := A.toScreen c.1 c.2
        if action = "mouse_move" then
          okShot A [VMOp.toScreenCoords c.1 c.2, VMOp.moveCursor p.1 p.2]
            ("Mouse moved to " ++ toString p.1 ++ ", " ++ toString p.2)
        else
          okShot A [VMOp.toScreenCoords c.1 c.2, VMOp.cursorPos, VMOp.dragTo p.1 p.2]
            ("Mouse dragged from (" ++ toString A.cursor.1 ++ ", " ++ toString A.cursor.2 ++
             ") to " ++ toString p.1 ++ ", " ++ toString p.2)
  else if action = "key" ∨ action = "type" then
    match text with
    | none => errResult [] ("text is required for " ++ action)
    | some t =>
      if coordinate ≠ none then errResult [] ("coordinate is not accepted for " ++ action)
      else if action = "key" then
        if (t.toLower = "command+space" ∨ t.toLower = "cmd+space") ∧ is_macos then
          okShot A [VMOp.osascriptRun] "Spotlight triggered via AppleScript"
        else
          okShot A
            [VMOp.hotkeyPress
              (((((t.toLower).replace "super" "command").splitOn "+").map String.trim).map
                (fun k => if k = "cmd" then "command" else k))]
            ("Key combination '" ++ t ++ "' pressed")
      else
        okShot A ((chunks t 50).map VMOp.typeChunk)
          (String.join ((chunks t 50).map (fun ck => "Typed chunk: " ++ ck)))
  else if action = "left_click" ∨ action = "right_click" ∨ action = "double_click" ∨
          action = "middle_click" ∨ action = "screenshot" ∨ action = "cursor_position" then
    if text ≠ none then errResult [] ("text is not accepted for " ++ action)
    else if action = "screenshot" then
      { ops := [VMOp.screenshotCap],
        result := Except.ok { output := some "Screenshot taken", base64_image := some A.shot } }
    else if action = "cursor_position" then
      let q := A.toShot A.cursor.1 A.cursor.2
      okShot A [VMOp.cursorPos, VMOp.toShotCoords A.cursor.1 A.cursor.2]
        ("X=" ++ toString q.1 ++ ",Y=" ++ toString q.2)
    else
      match coordinate with
      | some c =>
        let p := A.toScreen c.1 c.2
        let moveOps := [VMOp.toScreenCoords c.1 c.2, VMOp.moveCursor p.1 p.2]
        if action = "left_click" then
          okShot A (moveOps ++ [VMOp.clickLeft (some p)]) "Left click performed"
        else if action = "right_click" then
          okShot A (moveOps ++ [VMOp.clickRight (some p)]) "Right click performed"
        else if action = "double_click" then
          okShot A (moveOps ++ [VMOp.clickDouble (some p)]) "Double click performed"
        else
          okShot A (moveOps ++ [VMOp.clickLeft (some p)]) "Middle click performed"
      | none =>
        errResult [] ("Failed to perform " ++ action ++ ": name 'x' is not defined")
  else errResult [] ("Invalid action: " ++ action)

/-- The code following the `scroll` block in
`ComputerTool20250124.__call__`: `triple_click`, `copy_to_clipboard`, and the
final delegation to the base class. -/
def after_scroll_code (A : Actuator) (is_macos : Bool) (width height : ℕ)
    (action : String) (text : Option String) (coordinate : Option (ℤ × ℤ)) : CallResult :=
  if action = "triple_click" then
    match coordinate with
    | some c =>
      match validate_and_get_coordinates width height c with
      | Except.error e => errResult [] e
      | Except.ok p =>
        okShot A [VMOp.moveCursor p.1 p.2, VMOp.clickDouble none]
          ("Triple clicked at " ++ toString p.1 ++ ", " ++ toString p.2)
    | none => okShot A [VMOp.clickDouble none] "Triple clicked at current position"
  else if action = "copy_to_clipboard" then
    okShot A [VMOp.clipboardRead] ("Copied to clipboard: " ++ A.clipboard)
  else base_call A is_macos action text coordinate

def addOps (pre : List VMOp) (r : CallResult) : CallResult :=
  { ops := pre ++ r.ops, result := r.result }

/-- computer.py `ComputerTool20250124.__call__`.  The
`if action in ("hold_key", "wait"):` guard is commented out in the source, so
the surviving `if action == "wait":` branch sits (dead) inside the `scroll`
block, after its try/except; `hold_key` and `wait` reach the base class and
fail as invalid actions, and so does `scroll` with a left/right direction,
whose handling is commented out. -/
def call_20250124 (A : Actuator) (is_macos : Bool) (width height : ℕ) (action : String)
    (text : Option String) (coordinate : Option (ℤ × ℤ))
    (scroll_direction : Option String) (scroll_amount : Option ℤ)
    (duration : Option ℚ) : CallResult :=
  if action = "left_mouse_down" then
    okShot A [VMOp.mouseDown] "Left mouse button pressed down"
  else if action = "left_mouse_up" then
    okShot A [VMOp.mouseUp] "Left mouse button released"
  else if action = "scroll" then
    match scroll_direction with
    | none => errResult [] "scroll_direction must be one of: ('up', 'down', 'left', 'right')"
    | some d =>
      if ¬ (d = "up" ∨ d = "down" ∨ d = "left" ∨ d = "right") then
        errResult [] "scroll_direction must be one of: ('up', 'down', 'left', 'right')"
      else
        match scroll_amount with
        | none => errResult [] "scroll_amount must be a non-negative integer"
        | some amt =>
          if amt < 0 then errResult [] "scroll_amount must be a non-negative integer"
          else
            let contScroll : List VMOp → CallResult := fun ops0 =>
              if d = "up" ∨ d = "down" then
                addOps ops0 (okShot A
                  [if d = "up" then VMOp.scrollUpBy amt else VMOp.scrollDownBy amt]
                  ("Scrolled " ++ d ++ " " ++ toString amt ++ " times"))
              else if action = "wait" then
                -- dead: transcribed at its (mis-indented) position inside the scroll block
                { ops := ops0 ++ [VMOp.sleepFor (duration.getD 0), VMOp.screenshotCap],
                  result := Except.ok
                    { output := some "Screenshot taken", base64_image := some A.shot } }
              else
                addOps ops0 (after_scroll_code A is_macos width height action text coordinate)
            match coordinate with
            | some c =>
              match validate_and_get_coordinates width height c with
              | Except.error e => errResult [] e
              | Except.ok p => contScroll [VMOp.moveCursor p.1 p.2]
            | none => contScroll []
  else after_scroll_code A is_macos width height action text coordinate

/-- A concrete actuator used for closed evaluations: coordinate conversions
are the identity, cursor at the origin. -/
def actuatorEx : Actuator :=
  { toScreen := fun x y => (x, y), toShot := fun x y => (x, y),
    cursor := (0, 0), shot := "shotdata", clipboard := "clip" }

/-! ## Auxiliary: substring check ("the message names field F") -/

def startsWithChars : List Char → List Char → Bool
  | [], _ => true
  | _ :: _, [] => false
  | a :: as, b :: bs => a == b && startsWithChars as bs

def hasSubChars (pat : List Char) : List Char → Bool
  | [] => startsWithChars pat []
  | c :: rest => startsWithChars pat (c :: rest) || hasSubChars pat rest

/-- `strHasSub s pat`: does `pat` occur as a contiguous substring of `s`?
Used to state that an error message names a given field. -/
def strHasSub (s pat : String) : Bool :=
  hasSubChars pat.toList s.toList

/-! ## Example values used in closed witness/counterexample statements -/

def runToolEx : String → String → ToolResult := fun _ _ => { output := some "ok" }

def toolResultEx : ToolResult :=
  { output := some "out", error := some "boom", base64_image := some "img",
    system := some "sys" }

/-- A one-block user message; `cc` is the cache annotation on its block. -/
def exMsgU (s : String) (cc : Bool) : Message :=
  { role := Role.user,
    content := MsgContent.blocks [{ kind := BlockKind.text s, cache_control := cc }] }

/-- Five user turns; the oldest one carries a stale cache annotation. -/
def exConv : List Message :=
  [exMsgU "m0" true, exMsgU "m1" false, exMsgU "m2" false, exMsgU "m3" false,
   exMsgU "m4" false]

/-- A `tool_result` block holding one image and one text item. -/
def trBlockEx (n : Nat) : Block :=
  { kind := BlockKind.toolResult ("toolu_" ++ toString n) false
      (TRContent.items [TRItem.image "imgdata", TRItem.text "ok"]),
    cache_control := false }

/-- A conversation whose tool results carry five images in total. -/
def convImgsEx : List Message :=
  [ { role := Role.user, content := MsgContent.blocks [trBlockEx 1, trBlockEx 2] },
    { role := Role.user, content := MsgContent.blocks [trBlockEx 3, trBlockEx 4, trBlockEx 5] } ]

/-- A parsed model response with two `tool_use` blocks around a text block. -/
def respEx2 : List Block :=
  [ { kind := BlockKind.toolUse "id1" "computer" "in1", cache_control := false },
    { kind := BlockKind.text "x", cache_control := false },
    { kind := BlockKind.toolUse "id2" "bash" "in2", cache_control := false } ]

/-! ## C9: error tool results -/

/-- **C9.** For every ToolResult whose `error` field is non-empty, the
serialized `tool_result` block has `is_error = true` and its content is
exactly the error text (with the `<system>` annotation prefix when `system`
is set); output text and base64 image are discarded, so an error
`tool_result` carries no image. -/
theorem C9_error_serialization (r : ToolResult) (id e : String)
    (he : r.error = some e) (hne : e ≠ "") :
    make_api_tool_result r id =
      { kind := BlockKind.toolResult id true
          (TRContent.str (maybe_prepend_system_tool_result r e)),
        cache_control := false } ∧
    imagesInBlock (make_api_tool_result r id) = 0 := by
  have ht : optTruthy (some e) = true := by
    simpa [optTruthy] using hne
  constructor
  · simp [make_api_tool_result, he, ht]
  · simp [make_api_tool_result, he, ht, imagesInBlock, imagesInContent]

theorem C9_error_serialization_witness :
    make_api_tool_result toolResultEx "toolu_1" =
      { kind := BlockKind.toolResult "toolu_1" true
          (TRContent.str (maybe_prepend_system_tool_result toolResultEx "boom")),
        cache_control := false } ∧
    imagesInBlock (make_api_tool_result toolResultEx "toolu_1") = 0 :=
  C9_error_serialization toolResultEx "toolu_1" "boom" rfl (by decide)

/-! ## C6: actions advertised by the schema that the adapter rejects -/

/-- **C6** (code bug witness).  `wait` with `duration = 5`, `hold_key` with
text, and `scroll` with direction `left` and a valid nonnegative amount all
fall through `ComputerTool20250124.__call__` to the base class and fail with
an invalid-action ToolError, although the tool schema advertises them: the
`hold_key`/`wait` guard is commented out in the source, and its `wait` body
is dead code inside the scroll block. -/
theorem C6_schema_actions_rejected :
    (call_20250124 actuatorEx false 1366 768 "wait" none none none none (some 5)).result =
      Except.error "Invalid action: wait" ∧
    (call_20250124 actuatorEx false 1366 768 "hold_key" (some "a") none none none (some 2)).result =
      Except.error "Invalid action: hold_key" ∧
    (call_20250124 actuatorEx false 1366 768 "scroll" none none (some "left") (some 3) none).result =
      Except.error "Invalid action: scroll" :=
  ⟨rfl, rfl, rfl⟩

/-! ## C7: scroll_amount validation -/

/-- **C7** (counterexample to the claim as stated).  A `scroll` call with
`scroll_amount = -1` but an invalid `scroll_direction` raises the
scroll_direction validation failure: the message does not name
`scroll_amount`. -/
theorem C7_counterexample :
    (call_20250124 actuatorEx false 1366 768 "scroll" none none none (some (-1)) none) =
      errResult [] "scroll_direction must be one of: ('up', 'down', 'left', 'right')" ∧
    strHasSub "scroll_direction must be one of: ('up', 'down', 'left', 'right')"
      "scroll_amount" = false :=
  ⟨rfl, by decide⟩

/-- **C7** (amended).  For every `scroll` call with a valid
`scroll_direction` whose `scroll_amount` is missing or negative, the adapter
raises a validation failure whose message names `scroll_amount`, with no
actuator operation performed. -/
theorem C7_amended (A : Actuator) (is_macos : Bool) (width height : ℕ)
    (text : Option String) (coordinate : Option (ℤ × ℤ)) (d : String)
    (hd : d = "up" ∨ d = "down" ∨ d = "left" ∨ d = "right")
    (amt : Option ℤ) (hamt : ∀ v, amt = some v → v < 0) (duration : Option ℚ) :
    (call_20250124 A is_macos width height "scroll" text coordinate (some d) amt duration).ops
      = [] ∧
    (call_20250124 A is_macos width height "scroll" text coordinate (some d) amt duration).result
      = Except.error "scroll_amount must be a non-negative integer" ∧
    strHasSub "scroll_amount must be a non-negative integer" "scroll_amount" = true := by
  have key : call_20250124 A is_macos width height "scroll" text coordinate (some d) amt duration
      = errResult [] "scroll_amount must be a non-negative integer" := by
    rcases amt with _ | v
    · rcases hd with h | h | h | h <;> subst h <;> rfl
    · have hv : v < 0 := hamt v rfl
      rcases hd with h | h | h | h <;> subst h <;> simp [call_20250124, hv]
  exact ⟨by rw [key]; rfl, by rw [key]; rfl, by decide⟩

theorem C7_amended_witness :
    (call_20250124 actuatorEx false 1366 768 "scroll" none none (some "up") (some (-1)) none).ops
      = [] ∧
    (call_20250124 actuatorEx false 1366 768 "scroll" none none (some "up") (some (-1)) none).result
      = Except.error "scroll_amount must be a non-negative integer" ∧
    strHasSub "scroll_amount must be a non-negative integer" "scroll_amount" = true :=
  C7_amended actuatorEx false 1366 768 none none "up" (Or.inl rfl) (some (-1))
    (by intro v hv; cases hv; decide) none

/-! ## C5: out-of-bounds coordinates are not rejected -/

/-- **C5** (counterexample to the claim as stated).  `mouse_move` to
`(2000, 999)` — beyond the 1366x768 target bounds — is not rejected: the raw
coordinate goes to the VM controller's conversion, the cursor is moved, and
the call succeeds with a screenshot result. -/
theorem C5_counterexample :
    call_20250124 actuatorEx false 1366 768 "mouse_move" none (some (2000, 999))
        none none none =
      { ops := [VMOp.toScreenCoords 2000 999, VMOp.moveCursor 2000 999,
                VMOp.sleepFor 1, VMOp.screenshotCap],
        result := Except.ok
          { output := some "Mouse moved to 2000, 999", base64_image := some "shotdata" } } :=
  rfl

/-- **C5** (amended).  `scale_coordinates` with the API source does reject
logical coordinates beyond the 1366x768 target bounds, but the
coordinate-taking actions (`mouse_move`, `left_click_drag`, `left_click`,
`right_click`, `double_click`, `middle_click`) never invoke it: the adapter
forwards the raw out-of-bounds coordinate to the VM controller's
`to_screen_coordinates` and the call completes without a validation
failure. -/
theorem C5_amended (A : Actuator) (is_macos : Bool) (width height : ℕ)
    (x y : ℤ) (hxy : 1366 < x ∨ 768 < y) (action : String)
    (ha : action = "mouse_move" ∨ action = "left_click_drag" ∨ action = "left_click" ∨
          action = "right_click" ∨ action = "double_click" ∨ action = "middle_click") :
    scale_coordinates width height ScalingSource.API x y =
      Except.error ("Coordinates " ++ toString x ++ ", " ++ toString y ++
        " are out of bounds") ∧
    (∃ rest, (call_20250124 A is_macos width height action none (some (x, y))
        none none none).ops = VMOp.toScreenCoords x y :: rest) ∧
    (∃ t, (call_20250124 A is_macos width height action none (some (x, y))
        none none none).result = Except.ok t) := by
  refine ⟨by simp [scale_coordinates, hxy], ?_, ?_⟩ <;>
    rcases ha with h | h | h | h | h | h <;> subst h <;>
      exact ⟨_, rfl⟩

theorem C5_amended_witness :
    scale_coordinates 1366 768 ScalingSource.API 2000 0 =
      Except.error ("Coordinates " ++ toString (2000 : ℤ) ++ ", " ++ toString (0 : ℤ) ++
        " are out of bounds") ∧
    (∃ rest, (call_20250124 actuatorEx false 1366 768 "mouse_move" none (some (2000, 0))
        none none none).ops = VMOp.toScreenCoords 2000 0 :: rest) ∧
    (∃ t, (call_20250124 actuatorEx false 1366 768 "mouse_move" none (some (2000, 0))
        none none none).result = Except.ok t) :=
  C5_amended actuatorEx false 1366 768 2000 0 (Or.inl (by decide)) "mouse_move" (Or.inl rfl)

/-! ## Loop helper lemmas -/

theorem pre_api_call_anthropic (messages : List Message) (onlyN : Option Nat) :
    pre_api_call Provider.anthropic messages onlyN =
      { messages := inject_prompt_caching messages, onlyN := some 0,
        enable_prompt_caching := true, filter_applied := false } := by
  simp [pre_api_call, truthyNat]

theorem process_blocks_fst (f : String → String → ToolResult) (bs : List Block) :
    (process_blocks f bs).1 = (toolUses bs).map (fun u => (u.2.1, u.2.2)) := by
  induction bs with
  | nil => rfl
  | cons b rest ih =>
    cases hb : b.kind <;> simp [process_blocks, toolUses, hb, ih]

theorem blockToolUseId_make (r : ToolResult) (id : String) :
    blockToolUseId (make_api_tool_result r id) = some id := by
  unfold make_api_tool_result
  split <;> rfl

theorem process_blocks_snd_ids (f : String → String → ToolResult) (bs : List Block) :
    ((process_blocks f bs).2).map blockToolUseId = (toolUses bs).map (fun u => some u.1) := by
  induction bs with
  | nil => rfl
  | cons b rest ih =>
    cases hb : b.kind <;> simp [process_blocks, toolUses, hb, ih, blockToolUseId_make]

theorem process_blocks_snd_length (f : String → String → ToolResult) (bs : List Block) :
    ((process_blocks f bs).2).length = (toolUses bs).length := by
  have h := congrArg List.length (process_blocks_snd_ids f bs)
  simpa using h

theorem process_blocks_snd_nil (f : String → String → ToolResult) (bs : List Block)
    (h : toolUses bs = []) : (process_blocks f bs).2 = [] := by
  have hl := process_blocks_snd_length f bs
  rw [h] at hl
  exact List.eq_nil_of_length_eq_zero hl

/-- The pre-call phase leaves a conversation consisting of a single
string-content user message untouched, for every provider and keep-count
setting. -/
theorem pre_api_call_single_str (provider : Provider) (onlyN : Option Nat) (s : String) :
    (pre_api_call provider [⟨Role.user, MsgContent.str s⟩] onlyN).messages =
      [⟨Role.user, MsgContent.str s⟩] := by
  have hinj : inject_prompt_caching [⟨Role.user, MsgContent.str s⟩] =
      [⟨Role.user, MsgContent.str s⟩] := rfl
  have hfil : ∀ k c : ℕ,
      maybe_filter_to_n_most_recent_images [⟨Role.user, MsgContent.str s⟩] k c =
        [⟨Role.user, MsgContent.str s⟩] := by
    intro k c
    simp [maybe_filter_to_n_most_recent_images, removeFromMessages, removeFromMessage]
  unfold pre_api_call
  cases provider <;> simp [hinj] <;> split <;> simp [hfil, hinj]

/-! ## C10: ANTHROPIC provider disables the image filter -/

/-- **C10.** With the ANTHROPIC provider, prompt caching is enabled and the
loop overwrites `only_n_most_recent_images` to `0` before the filter check of
the first iteration, so the image-retention filter is never applied in any
iteration of the run, whatever keep count the caller configured. -/
theorem C10_anthropic_never_filters (messages : List Message) (onlyN : Option Nat)
    (runTool : String → String → ToolResult) (script : List (List Block)) :
    (pre_api_call Provider.anthropic messages onlyN).enable_prompt_caching = true ∧
    (pre_api_call Provider.anthropic messages onlyN).onlyN = some 0 ∧
    (run_loop Provider.anthropic runTool script messages onlyN).2.2 = false := by
  refine ⟨by rw [pre_api_call_anthropic], by rw [pre_api_call_anthropic], ?_⟩
  induction script generalizing messages onlyN with
  | nil => simp [run_loop, pre_api_call_anthropic]
  | cons response rest ih =>
    simp only [run_loop, loop_iteration, pre_api_call_anthropic]
    split <;> simp [ih]

/-! ## C4: single user turn, response without tool use -/

/-- **C4.** Starting from a conversation holding one user text message, if
the model's response contains no `tool_use` block, the loop makes exactly one
model call, appends exactly one assistant message, and terminates with a
conversation of length 2 — for every provider, keep-count setting, and
remaining script. -/
theorem C4_single_turn (provider : Provider) (runTool : String → String → ToolResult)
    (s : String) (response : List Block) (rest : List (List Block)) (onlyN : Option Nat)
    (h : toolUses response = []) :
    (run_loop provider runTool (response :: rest) [⟨Role.user, MsgContent.str s⟩] onlyN).1 =
      [⟨Role.user, MsgContent.str s⟩, ⟨Role.assistant, MsgContent.blocks response⟩] ∧
    (run_loop provider runTool (response :: rest) [⟨Role.user, MsgContent.str s⟩] onlyN).2.1
      = 1 := by
  have hrs : (process_blocks runTool response).2 = [] := process_blocks_snd_nil runTool response h
  constructor <;>
    simp [run_loop, loop_iteration, hrs, pre_api_call_single_str]

theorem C4_single_turn_witness :
    (run_loop Provider.bedrock runToolEx
        [[{ kind := BlockKind.text "hello", cache_control := false }]]
        [⟨Role.user, MsgContent.str "hi"⟩] none).1 =
      [⟨Role.user, MsgContent.str "hi"⟩,
       ⟨Role.assistant, MsgContent.blocks
          [{ kind := BlockKind.text "hello", cache_control := false }]⟩] ∧
    (run_loop Provider.bedrock runToolEx
        [[{ kind := BlockKind.text "hello", cache_control := false }]]
        [⟨Role.user, MsgContent.str "hi"⟩] none).2.1 = 1 :=
  C4_single_turn Provider.bedrock runToolEx "hi"
    [{ kind := BlockKind.text "hello", cache_control := false }] [] none (by decide)

/-! ## C1: tool dispatch, one result per request, in order -/

/-- **C1.** For every assistant response, the loop dispatches each `tool_use`
block exactly once, sequentially in block order (the dispatch trace equals
the (name, input) list of the `tool_use` blocks), and produces exactly one
`tool_result` block per request with matching `tool_use_id`s in the same
order; when at least one `tool_use` block is present, these results are
appended as a new user message and the loop continues. -/
theorem C1_dispatch_order (runTool : String → String → ToolResult) (response : List Block)
    (provider : Provider) (messages : List Message) (onlyN : Option Nat) :
    (process_blocks runTool response).1 = (toolUses response).map (fun u => (u.2.1, u.2.2)) ∧
    ((process_blocks runTool response).2).length = (toolUses response).length ∧
    ((process_blocks runTool response).2).map blockToolUseId =
      (toolUses response).map (fun u => some u.1) ∧
    (0 < (toolUses response).length →
      loop_iteration provider runTool messages onlyN response =
        ((pre_api_call provider messages onlyN).messages ++
           [⟨Role.assistant, MsgContent.blocks response⟩,
            ⟨Role.user, MsgContent.blocks (process_blocks runTool response).2⟩],
         (pre_api_call provider messages onlyN).onlyN,
         (pre_api_call provider messages onlyN).filter_applied, true)) := by
  refine ⟨process_blocks_fst runTool response, process_blocks_snd_length runTool response,
    process_blocks_snd_ids runTool response, ?_⟩
  intro hpos
  have hne : (process_blocks runTool response).2 ≠ [] := by
    intro hnil
    have hlen := process_blocks_snd_length runTool response
    rw [hnil] at hlen
    simp at hlen
    omega
  simp [loop_iteration, hne]

theorem C1_dispatch_order_witness :
    loop_iteration Provider.bedrock runToolEx [] none respEx2 =
      ([⟨Role.assistant, MsgContent.blocks respEx2⟩,
        ⟨Role.user, MsgContent.blocks
          [{ kind := BlockKind.toolResult "id1" false (TRContent.items [TRItem.text "ok"]),
             cache_control := false },
           { kind := BlockKind.toolResult "id2" false (TRContent.items [TRItem.text "ok"]),
             cache_control := false }]⟩],
       none, false, true) :=
  (C1_dispatch_order runToolEx respEx2 Provider.bedrock [] none).2.2.2 (by decide)

/-! ## C3: the image retention policy -/

/-- Number of images a removal pass starting with counter `n` drops out of
`c` available images: `min (max n 0) c`. -/
def clampRemoved (n : ℤ) (c : ℕ) : ℤ :=
  if n ≤ 0 then 0 else if (c : ℤ) ≤ n then c else n

theorem clampRemoved_add (n : ℤ) (a b : ℕ) :
    clampRemoved n (a + b) = clampRemoved n a + clampRemoved (n - clampRemoved n a) b := by
  unfold clampRemoved
  split_ifs <;> omega

theorem clampRemoved_zero (n : ℤ) : clampRemoved n 0 = 0 := by
  unfold clampRemoved
  split_ifs <;> omega

theorem removeItems_spec (n : ℤ) (l : List TRItem) :
    (removeItems n l).1 = n - clampRemoved n (l.countP trItemIsImage) ∧
    ((removeItems n l).2.countP trItemIsImage : ℤ) =
      (l.countP trItemIsImage : ℤ) - clampRemoved n (l.countP trItemIsImage) := by
  induction l generalizing n with
  | nil => simp [removeItems, clampRemoved_zero]
  | cons item rest ih =>
    by_cases himg : trItemIsImage item = true
    · by_cases hn : 0 < n
      · obtain ⟨ih1, ih2⟩ := ih (n - 1)
        have hcl : clampRemoved n (rest.countP trItemIsImage + 1) =
            1 + clampRemoved (n - 1) (rest.countP trItemIsImage) := by
          unfold clampRemoved; split_ifs <;> omega
        constructor <;>
          simp [removeItems, himg, hn, List.countP_cons, ih1, ih2, hcl] <;> omega
      · obtain ⟨ih1, ih2⟩ := ih n
        have hcl : clampRemoved n (rest.countP trItemIsImage + 1) =
            clampRemoved n (rest.countP trItemIsImage) := by
          unfold clampRemoved; split_ifs <;> omega
        constructor <;>
          simp [removeItems, himg, hn, List.countP_cons, ih1, ih2, hcl] <;> omega
    · obtain ⟨ih1, ih2⟩ := ih n
      constructor <;>
        simp [removeItems, himg, List.countP_cons, ih1, ih2]

theorem removeFromBlock_spec (n : ℤ) (b : Block) :
    (removeFromBlock n b).1 = n - clampRemoved n (imagesInBlock b) ∧
    (imagesInBlock (removeFromBlock n b).2 : ℤ) =
      (imagesInBlock b : ℤ) - clampRemoved n (imagesInBlock b) := by
  rcases b with ⟨kind, cc⟩
  cases kind with
  | toolResult id err c =>
    cases c with
    | items l =>
      obtain ⟨h1, h2⟩ := removeItems_spec n l
      constructor
      · simpa [removeFromBlock, imagesInBlock, imagesInContent] using h1
      · simpa [removeFromBlock, imagesInBlock, imagesInContent] using h2
    | str s =>
      simp [removeFromBlock, imagesInBlock, imagesInContent, clampRemoved_zero]
  | text t => simp [removeFromBlock, imagesInBlock, clampRemoved_zero]
  | thinking t sg => simp [removeFromBlock, imagesInBlock, clampRemoved_zero]
  | toolUse id nm inp => simp [removeFromBlock, imagesInBlock, clampRemoved_zero]

theorem removeFromBlocks_spec (n : ℤ) (bs : List Block) :
    (removeFromBlocks n bs).1 = n - clampRemoved n ((bs.map imagesInBlock).sum) ∧
    (((removeFromBlocks n bs).2.map imagesInBlock).sum : ℤ) =
      (((bs.map imagesInBlock).sum : ℕ) : ℤ) - clampRemoved n ((bs.map imagesInBlock).sum) := by
  induction bs generalizing n with
  | nil => simp [removeFromBlocks, clampRemoved_zero]
  | cons b rest ih =>
    obtain ⟨hb1, hb2⟩ := removeFromBlock_spec n b
    obtain ⟨hr1, hr2⟩ := ih (removeFromBlock n b).1
    have hadd := clampRemoved_add n (imagesInBlock b) ((rest.map imagesInBlock).sum)
    rw [← hb1] at hadd
    constructor
    · simp only [removeFromBlocks, List.map_cons, List.sum_cons]
      omega
    · simp only [removeFromBlocks, List.map_cons, List.sum_cons]
      push_cast at hb2 hr2 ⊢
      omega

theorem removeFromMessage_spec (n : ℤ) (m : Message) :
    (removeFromMessage n m).1 = n - clampRemoved n (imagesInMessage m) ∧
    (imagesInMessage (removeFromMessage n m).2 : ℤ) =
      (imagesInMessage m : ℤ) - clampRemoved n (imagesInMessage m) := by
  rcases m with ⟨role, content⟩
  cases content with
  | str s => simp [removeFromMessage, imagesInMessage, clampRemoved_zero]
  | blocks bs =>
    obtain ⟨h1, h2⟩ := removeFromBlocks_spec n bs
    constructor
    · simp only [removeFromMessage, imagesInMessage]
      omega
    · simp only [removeFromMessage, imagesInMessage]
      push_cast at h2 ⊢
      omega

theorem removeFromMessages_spec (n : ℤ) (msgs : List Message) :
    (removeFromMessages n msgs).1 = n - clampRemoved n (total_images msgs) ∧
    (total_images (removeFromMessages n msgs).2 : ℤ) =
      (total_images msgs : ℤ) - clampRemoved n (total_images msgs) := by
  induction msgs generalizing n with
  | nil => simp [removeFromMessages, total_images, clampRemoved_zero]
  | cons m rest ih =>
    obtain ⟨hm1, hm2⟩ := removeFromMessage_spec n m
    obtain ⟨hr1, hr2⟩ := ih (removeFromMessage n m).1
    have hadd := clampRemoved_add n (imagesInMessage m) (total_images rest)
    rw [← hm1] at hadd
    simp only [total_images] at hadd hr1 hr2 ⊢
    constructor
    · simp only [removeFromMessages, List.map_cons, List.sum_cons]
      omega
    · simp only [removeFromMessages, List.map_cons, List.sum_cons]
      push_cast at hm2 hr2 ⊢
      omega

/-- Arithmetic core of the retention property, over a prior total `T` and a
remaining count `R` related by the removal-pass specification. -/
theorem retention_arith (T k c R : ℕ) (hk : 1 ≤ k) (hc : 1 ≤ c)
    (hspec : (R : ℤ) = (T : ℤ) -
      clampRemoved (((T : ℤ) - k) - ((T : ℤ) - k) % c) T) :
    R ≤ T ∧
    (c : ℤ) ∣ ((T : ℤ) - R) ∧
    (k ≤ T → ((T : ℤ) - R = ((T : ℤ) - k) - ((T : ℤ) - k) % c ∧ k ≤ R)) ∧
    (T < k → R = T) := by
  have hc0 : ((c : ℤ)) ≠ 0 := by omega
  have hmod0 : 0 ≤ ((T : ℤ) - k) % c := Int.emod_nonneg _ hc0
  rcases le_or_lt k T with hkt | htk
  · have hq : 0 ≤ ((T : ℤ) - k) / c := Int.ediv_nonneg (by omega) (by omega)
    have hdiv : ((T : ℤ) - k) - ((T : ℤ) - k) % c = c * (((T : ℤ) - k) / c) := by
      rw [Int.emod_def]; ring
    have hnn : 0 ≤ ((T : ℤ) - k) - ((T : ℤ) - k) % c := by
      rw [hdiv]
      exact mul_nonneg (by omega) hq
    have hclamp : clampRemoved (((T : ℤ) - k) - ((T : ℤ) - k) % c) T =
        ((T : ℤ) - k) - ((T : ℤ) - k) % c := by
      unfold clampRemoved; split_ifs <;> omega
    rw [hclamp] at hspec
    refine ⟨by omega, ?_, fun _ => ⟨by omega, by omega⟩, fun h => by omega⟩
    have hr : (T : ℤ) - R = (c : ℤ) * (((T : ℤ) - k) / c) := by omega
    exact ⟨_, hr⟩
  · have hneg : (((T : ℤ) - k) - ((T : ℤ) - k) % c) < 0 := by omega
    have hclamp : clampRemoved (((T : ℤ) - k) - ((T : ℤ) - k) % c) T = 0 := by
      unfold clampRemoved; split_ifs <;> omega
    rw [hclamp] at hspec
    refine ⟨by omega, ?_, fun h => absurd h (by omega), fun _ => by omega⟩
    have hr : (T : ℤ) - R = 0 := by omega
    rw [hr]
    exact dvd_zero _

/-- **C3.** For every conversation, keep count `k ≥ 1` and removal chunk
`c ≥ 1`: after the image filter, the remaining images are at most the prior
total; the removed count is a multiple of `c`; when the prior total is at
least `k`, the removed count is `(total - k)` rounded down to a multiple of
`c` and at least `k` images remain; when the prior total is below `k`
nothing is removed. -/
theorem C3_image_retention (msgs : List Message) (k c : ℕ) (hk : 1 ≤ k) (hc : 1 ≤ c) :
    total_images (maybe_filter_to_n_most_recent_images msgs k c) ≤ total_images msgs ∧
    (c : ℤ) ∣ ((total_images msgs : ℤ) -
      (total_images (maybe_filter_to_n_most_recent_images msgs k c) : ℤ)) ∧
    (k ≤ total_images msgs →
      (total_images msgs : ℤ) -
          (total_images (maybe_filter_to_n_most_recent_images msgs k c) : ℤ) =
        ((total_images msgs : ℤ) - k) - ((total_images msgs : ℤ) - k) % c ∧
      k ≤ total_images (maybe_filter_to_n_most_recent_images msgs k c)) ∧
    (total_images msgs < k →
      total_images (maybe_filter_to_n_most_recent_images msgs k c) = total_images msgs) := by
  have heq : maybe_filter_to_n_most_recent_images msgs k c =
      (removeFromMessages
        (((total_images msgs : ℤ) - k) - ((total_images msgs : ℤ) - k) % c) msgs).2 := rfl
  rw [heq]
  exact retention_arith (total_images msgs) k c _ hk hc
    (removeFromMessages_spec
      (((total_images msgs : ℤ) - k) - ((total_images msgs : ℤ) - k) % c) msgs).2

theorem C3_image_retention_witness :
    total_images (maybe_filter_to_n_most_recent_images convImgsEx 2 2) ≤ total_images convImgsEx ∧
    ((2 : ℕ) : ℤ) ∣ ((total_images convImgsEx : ℤ) -
      (total_images (maybe_filter_to_n_most_recent_images convImgsEx 2 2) : ℤ)) ∧
    (2 ≤ total_images convImgsEx →
      (total_images convImgsEx : ℤ) -
          (total_images (maybe_filter_to_n_most_recent_images convImgsEx 2 2) : ℤ) =
        ((total_images convImgsEx : ℤ) - 2) - ((total_images convImgsEx : ℤ) - 2) % 2 ∧
      2 ≤ total_images (maybe_filter_to_n_most_recent_images convImgsEx 2 2)) ∧
    (total_images convImgsEx < 2 →
      total_images (maybe_filter_to_n_most_recent_images convImgsEx 2 2) =
        total_images convImgsEx) :=
  C3_image_retention convImgsEx 2 2 (by decide) (by decide)

/-! ## C2: cache breakpoint placement -/

/-- The block list of a message (empty for string content). -/
def msgBlocks (m : Message) : List Block :=
  match m.content with
  | MsgContent.blocks bs => bs
  | MsgContent.str _ => []

theorem set_last_cache_last (bs : List Block) (h : bs ≠ []) :
    ((set_last_cache bs).getLast?).map (fun b => b.cache_control) = some true := by
  induction bs with
  | nil => exact absurd rfl h
  | cons b rest ih =>
    cases rest with
    | nil => rfl
    | cons b' rest' =>
      have hstep : set_last_cache (b :: b' :: rest') = b :: set_last_cache (b' :: rest') := rfl
      have hne : set_last_cache (b' :: rest') ≠ [] := by
        cases rest' <;> simp [set_last_cache]
      obtain ⟨c, cs, hcs⟩ := List.exists_cons_of_ne_nil hne
      rw [hstep, hcs, List.getLast?_cons_cons, ← hcs]
      exact ih (by simp)

theorem clear_last_cache_last (bs : List Block) (h : bs ≠ []) :
    ((clear_last_cache bs).getLast?).map (fun b => b.cache_control) = some false := by
  induction bs with
  | nil => exact absurd rfl h
  | cons b rest ih =>
    cases rest with
    | nil => rfl
    | cons b' rest' =>
      have hstep : clear_last_cache (b :: b' :: rest') = b :: clear_last_cache (b' :: rest') := rfl
      have hne : clear_last_cache (b' :: rest') ≠ [] := by
        cases rest' <;> simp [clear_last_cache]
      obtain ⟨c, cs, hcs⟩ := List.exists_cons_of_ne_nil hne
      rw [hstep, hcs, List.getLast?_cons_cons, ← hcs]
      exact ih (by simp)

theorem carriesOnLast_setMsgCache (m : Message) (hu : isUserListMsg m = true)
    (hne : msgBlocks m ≠ []) : carriesOnLast (setMsgCache m) = true := by
  rcases m with ⟨role, content⟩
  cases content with
  | str s => cases role <;> simp [isUserListMsg] at hu
  | blocks bs =>
    simp only [msgBlocks] at hne
    simp [setMsgCache, carriesOnLast, set_last_cache_last bs hne]

theorem carriesOnLast_clearMsgCache (m : Message) :
    carriesOnLast (clearMsgCache m) = false := by
  rcases m with ⟨role, content⟩
  cases content with
  | str s => rfl
  | blocks bs =>
    cases bs with
    | nil => rfl
    | cons b rest =>
      simp [clearMsgCache, carriesOnLast, clear_last_cache_last (b :: rest) (by simp)]

theorem isUserListMsg_str (role : Role) (s : String) :
    isUserListMsg ⟨role, MsgContent.str s⟩ = false := by
  cases role <;> rfl

theorem isUserListMsg_blocks_user (bs : List Block) :
    isUserListMsg ⟨Role.user, MsgContent.blocks bs⟩ = true := rfl

theorem isUserListMsg_blocks_assistant (bs : List Block) :
    isUserListMsg ⟨Role.assistant, MsgContent.blocks bs⟩ = false := rfl

theorem injectRev_filter (r : Nat) (rev : List Message) :
    (injectRev r rev).filter isUserListMsg = annotateFirst r (rev.filter isUserListMsg) := by
  induction rev generalizing r with
  | nil => cases r <;> simp [injectRev, annotateFirst]
  | cons m rest ih =>
    rcases m with ⟨role, content⟩
    cases content with
    | str s =>
      cases role <;> simp [injectRev, List.filter_cons, isUserListMsg_str, ih]
    | blocks bs =>
      cases role with
      | assistant =>
        simp [injectRev, List.filter_cons, isUserListMsg_blocks_assistant, ih]
      | user =>
        cases r with
        | zero =>
          simp [injectRev, List.filter_cons, isUserListMsg_blocks_user, annotateFirst,
            clearMsgCache]
        | succ r' =>
          simp [injectRev, List.filter_cons, isUserListMsg_blocks_user, annotateFirst,
            setMsgCache, ih]

theorem injectRev_filter_not (r : Nat) (rev : List Message) :
    (injectRev r rev).filter (fun m => !isUserListMsg m) =
      rev.filter (fun m => !isUserListMsg m) := by
  induction rev generalizing r with
  | nil => simp [injectRev]
  | cons m rest ih =>
    rcases m with ⟨role, content⟩
    cases content with
    | str s =>
      cases role <;> simp [injectRev, List.filter_cons, isUserListMsg_str, ih]
    | blocks bs =>
      cases role with
      | assistant =>
        simp [injectRev, List.filter_cons, isUserListMsg_blocks_assistant, ih]
      | user =>
        cases r with
        | zero =>
          simp [injectRev, List.filter_cons, isUserListMsg_blocks_user]
        | succ r' =>
          simp [injectRev, List.filter_cons, isUserListMsg_blocks_user, ih]

theorem recentUsers_inject (msgs : List Message) :
    recentUsers (inject_prompt_caching msgs) = annotateFirst 3 (recentUsers msgs) := by
  unfold recentUsers inject_prompt_caching
  rw [List.reverse_reverse]
  exact injectRev_filter 3 msgs.reverse

theorem filter_not_inject (msgs : List Message) :
    (inject_prompt_caching msgs).filter (fun m => !isUserListMsg m) =
      msgs.filter (fun m => !isUserListMsg m) := by
  unfold inject_prompt_caching
  rw [List.filter_reverse, injectRev_filter_not, ← List.filter_reverse,
    List.reverse_reverse]

theorem annotateFirst_take (r : Nat) (L : List Message)
    (h : ∀ m ∈ L, carriesOnLast (setMsgCache m) = true) :
    ((annotateFirst r L).take r).all carriesOnLast = true := by
  induction r generalizing L with
  | zero => simp
  | succ r' ih =>
    cases L with
    | nil => simp [annotateFirst]
    | cons m rest =>
      simp only [annotateFirst, List.take_succ_cons, List.all_cons, Bool.and_eq_true]
      exact ⟨h m (by simp), ih rest (fun x hx => h x (by simp [hx]))⟩

theorem annotateFirst_next (r : Nat) (L : List Message) :
    (((annotateFirst r L).drop r).take 1).all (fun m => !carriesOnLast m) = true := by
  induction r generalizing L with
  | zero =>
    cases L with
    | nil => simp [annotateFirst]
    | cons m rest => simp [annotateFirst, carriesOnLast_clearMsgCache]
  | succ r' ih =>
    cases L with
    | nil => simp [annotateFirst]
    | cons m rest => simpa [annotateFirst] using ih rest

theorem annotateFirst_drop (r : Nat) (L : List Message) :
    (annotateFirst r L).drop (r + 1) = L.drop (r + 1) := by
  induction r generalizing L with
  | zero =>
    cases L with
    | nil => simp [annotateFirst]
    | cons m rest => simp [annotateFirst]
  | succ r' ih =>
    cases L with
    | nil => simp [annotateFirst]
    | cons m rest => simpa [annotateFirst] using ih rest

/-- **C2** (counterexample to the claim as stated).  On a conversation whose
oldest (5th most recent) user message already carries a stale cache
annotation, `_inject_prompt_caching` stops scanning after clearing the 4th
most recent user message, so afterwards four user messages carry the
annotation — more than the claimed maximum of 3, and not the 3 most
recent. -/
theorem C2_counterexample :
    3 < (inject_prompt_caching exConv).countP
      (fun m => isUserListMsg m && carriesAnno m) := by decide

/-- **C2** (amended).  After `_inject_prompt_caching`, in a conversation
whose user list-content messages have nonempty content: the 3 most recent
user list-content messages carry the annotation on their last block (all of
them when fewer than 3 exist), the 4th most recent one — if present — has
the annotation cleared from its last block, user list-content messages older
than the 4th most recent are left exactly as they were (a stale annotation
there persists), and all other messages are unchanged. -/
theorem C2_amended (msgs : List Message)
    (hwf : ∀ m ∈ msgs, isUserListMsg m = true → msgBlocks m ≠ []) :
    ((recentUsers (inject_prompt_caching msgs)).take 3).all carriesOnLast = true ∧
    (((recentUsers (inject_prompt_caching msgs)).drop 3).take 1).all
      (fun m => !carriesOnLast m) = true ∧
    (recentUsers (inject_prompt_caching msgs)).drop 4 = (recentUsers msgs).drop 4 ∧
    (inject_prompt_caching msgs).filter (fun m => !isUserListMsg m) =
      msgs.filter (fun m => !isUserListMsg m) := by
  have hmem : ∀ m ∈ recentUsers msgs, carriesOnLast (setMsgCache m) = true := by
    intro m hm
    unfold recentUsers at hm
    have h1 := List.mem_filter.mp hm
    exact carriesOnLast_setMsgCache m h1.2 (hwf m (List.mem_reverse.mp h1.1) h1.2)
  refine ⟨?_, ?_, ?_, filter_not_inject msgs⟩
  · rw [recentUsers_inject]
    exact annotateFirst_take 3 (recentUsers msgs) hmem
  · rw [recentUsers_inject]
    exact annotateFirst_next 3 (recentUsers msgs)
  · rw [recentUsers_inject]
    exact annotateFirst_drop 3 (recentUsers msgs)

theorem C2_amended_witness :
    ((recentUsers (inject_prompt_caching exConv)).take 3).all carriesOnLast = true ∧
    (((recentUsers (inject_prompt_caching exConv)).drop 3).take 1).all
      (fun m => !carriesOnLast m) = true ∧
    (recentUsers (inject_prompt_caching exConv)).drop 4 = (recentUsers exConv).drop 4 ∧
    (inject_prompt_caching exConv).filter (fun m => !isUserListMsg m) =
      exConv.filter (fun m => !isUserListMsg m) :=
  C2_amended exConv (by decide)

/-! ## C8: coordinate round trip -/

/-- Round-half-to-even stays within 1/2 of its argument. -/
theorem roundHalfEven_dist (q : ℚ) : |(roundHalfEven q : ℚ) - q| ≤ 1/2 := by
  have h0 : ((⌊q⌋ : ℤ) : ℚ) ≤ q := Int.floor_le q
  have h1 : q < (⌊q⌋ : ℚ) + 1 := Int.lt_floor_add_one q
  unfold roundHalfEven
  split_ifs with hlt hgt heven
  · rw [abs_le]
    constructor <;> linarith
  · push_cast
    rw [abs_le]
    constructor <;> linarith
  · rw [abs_le]
    constructor <;> linarith
  · push_cast
    rw [abs_le]
    constructor <;> linarith

/-- Round trip along one axis: scaling an integer up by `w / t ≥ 1` with
rounding, then back down, moves it by at most one unit. -/
theorem round_trip_axis (t w : ℚ) (ht : 0 < t) (hw : t ≤ w) (x : ℤ) :
    |roundHalfEven ((roundHalfEven ((x : ℚ) * w / t) : ℚ) * t / w) - x| ≤ 1 := by
  have hw0 : (0 : ℚ) < w := lt_of_lt_of_le ht hw
  have htne : t ≠ 0 := ne_of_gt ht
  have hwne : w ≠ 0 := ne_of_gt hw0
  have h1 : |((roundHalfEven ((x : ℚ) * w / t) : ℤ) : ℚ) - (x : ℚ) * w / t| ≤ 1/2 :=
    roundHalfEven_dist _
  have hab : ((roundHalfEven ((x : ℚ) * w / t) : ℤ) : ℚ) * t / w - (x : ℚ) =
      (((roundHalfEven ((x : ℚ) * w / t) : ℤ) : ℚ) - (x : ℚ) * w / t) * (t / w) := by
    field_simp
    ring
  have htw1 : t / w ≤ 1 := by
    rw [div_le_one hw0]
    exact hw
  have htw0 : 0 < t / w := div_pos ht hw0
  have h2 : |((roundHalfEven ((x : ℚ) * w / t) : ℤ) : ℚ) * t / w - (x : ℚ)| ≤ 1/2 := by
    rw [hab, abs_mul, abs_of_pos htw0]
    calc |((roundHalfEven ((x : ℚ) * w / t) : ℤ) : ℚ) - (x : ℚ) * w / t| * (t / w)
        ≤ (1/2) * 1 := by
          apply mul_le_mul h1 htw1 (le_of_lt htw0) (by norm_num)
      _ = 1/2 := by norm_num
  have h3 : |(roundHalfEven (((roundHalfEven ((x : ℚ) * w / t) : ℤ) : ℚ) * t / w) : ℚ) -
      ((roundHalfEven ((x : ℚ) * w / t) : ℤ) : ℚ) * t / w| ≤ 1/2 :=
    roundHalfEven_dist _
  have h4 : |(roundHalfEven (((roundHalfEven ((x : ℚ) * w / t) : ℤ) : ℚ) * t / w) : ℚ) -
      (x : ℚ)| ≤ 1 := by
    calc |(roundHalfEven (((roundHalfEven ((x : ℚ) * w / t) : ℤ) : ℚ) * t / w) : ℚ) - (x : ℚ)|
        = |((roundHalfEven (((roundHalfEven ((x : ℚ) * w / t) : ℤ) : ℚ) * t / w) : ℚ) -
            ((roundHalfEven ((x : ℚ) * w / t) : ℤ) : ℚ) * t / w) +
           (((roundHalfEven ((x : ℚ) * w / t) : ℤ) : ℚ) * t / w - (x : ℚ))| := by
          ring_nf
      _ ≤ _ := abs_add _ _
      _ ≤ 1/2 + 1/2 := add_le_add h3 h2
      _ = 1 := by norm_num
  exact_mod_cast h4

/-- **C8** (counterexample to the claim as stated).  With a detected physical
resolution of 100x768 — smaller than the 1366x768 target on the x axis — the
logical x-coordinate 7 (inside the target bounds) scales to physical 1 and
back to logical 14, which is 7 units away from the original. -/
theorem C8_counterexample :
    scale_coordinates 100 768 ScalingSource.API 7 0 = Except.ok (1, 0) ∧
    scale_coordinates 100 768 ScalingSource.COMPUTER 1 0 = Except.ok (14, 0) ∧
    ¬ (|(14 : ℤ) - 7| ≤ 1) := by
  refine ⟨?_, ?_, by decide⟩ <;>
    · unfold scale_coordinates roundHalfEven
      norm_num

/-- **C8** (amended).  For every logical coordinate inside the 1366x768
target bounds and every detected physical resolution at least as large as
the target on each axis, converting logical to physical (API source) and
back (COMPUTER source) lands within one unit of the original on each
axis. -/
theorem C8_amended (width height : ℕ) (hw : 1366 ≤ width) (hh : 768 ≤ height)
    (x y : ℤ) (hx0 : 0 ≤ x) (hx : x ≤ 1366) (hy0 : 0 ≤ y) (hy : y ≤ 768) :
    ∃ p : ℤ × ℤ,
      scale_coordinates width height ScalingSource.API x y = Except.ok p ∧
      ∃ q : ℤ × ℤ,
        scale_coordinates width height ScalingSource.COMPUTER p.1 p.2 = Except.ok q ∧
        |q.1 - x| ≤ 1 ∧ |q.2 - y| ≤ 1 := by
  have hwq : (1366 : ℚ) ≤ (width : ℚ) := by exact_mod_cast hw
  have hhq : (768 : ℚ) ≤ (height : ℚ) := by exact_mod_cast hh
  have hapi : scale_coordinates width height ScalingSource.API x y =
      Except.ok (roundHalfEven ((x : ℚ) / (1366 / (width : ℚ))),
                 roundHalfEven ((y : ℚ) / (768 / (height : ℚ)))) := by
    simp only [scale_coordinates]
    rw [if_neg (show ¬ (1366 < x ∨ 768 < y) by omega)]
  refine ⟨_, hapi, _, rfl, ?_, ?_⟩
  · show |roundHalfEven ((roundHalfEven ((x : ℚ) / (1366 / (width : ℚ))) : ℚ) *
        (1366 / (width : ℚ))) - x| ≤ 1
    rw [div_div_eq_mul_div, ← mul_div_assoc]
    exact round_trip_axis 1366 (width : ℚ) (by norm_num) hwq x
  · show |roundHalfEven ((roundHalfEven ((y : ℚ) / (768 / (height : ℚ))) : ℚ) *
        (768 / (height : ℚ))) - y| ≤ 1
    rw [div_div_eq_mul_div, ← mul_div_assoc]
    exact round_trip_axis 768 (height : ℚ) (by norm_num) hhq y

theorem C8_amended_witness :
    ∃ p : ℤ × ℤ,
      scale_coordinates 1366 768 ScalingSource.API 100 50 = Except.ok p ∧
      ∃ q : ℤ × ℤ,
        scale_coordinates 1366 768 ScalingSource.COMPUTER p.1 p.2 = Except.ok q ∧
        |q.1 - 100| ≤ 1 ∧ |q.2 - 50| ≤ 1 :=
  C8_amended 1366 768 (by decide) (by decide) 100 50 (by decide) (by decide)
    (by decide) (by decide)

end ClickRepeat
